import Mathlib

/-!
# Verification of the OpenEduVoice resilient inference pipeline

Shallow embedding of the core of the OpenEduVoice repository:

* `core/translation/nllb_model.py` — sentence-bounded chunked translation
  (`NLLBTranslator._split_by_sentences`, `NLLBTranslator.translate`), model
  auto-selection (`_pick_model_name`, `_cuda_total_gib`, `_choose_device`) and
  the memory-budget device override in `NLLBTranslator.__init__`.
* `core/audio/transcriber.py` — device/compute selection
  (`_select_device_and_compute`, `_torch_cuda_available`,
  `_cuda_wheels_present`), the CUDA path patching (`set_cuda_paths`), the
  compute-type fallback cascade (`_init_model`) and the per-file batch
  transcription (`transcribe_audio_files`).
* `app/main_window.py` — the acknowledgement gate of
  `App.run_selected_steps`.

Python strings are embedded as `List Char`; the runtime environment
(torch / CUDA probes, the filesystem, `os.environ`) is embedded as explicit
state records, and the external model libraries are abstracted as oracle
functions passed to the embedded code.
-/

namespace OpenEduVoice

/-! ## Python string helpers on `List Char` -/

/-- Python's `\s` character class (as used by `str.strip` and `re.split`). -/
def isSpace (c : Char) : Bool := c.isWhitespace

/-- A sentence-ending character of the regex `(?<=[.!?])\s+`. -/
def isSentEnd (c : Char) : Bool := c == '.' || c == '!' || c == '?'

/-- Python `str.strip()`: drop leading and trailing whitespace. -/
def pyStrip (s : List Char) : List Char :=
  ((s.dropWhile isSpace).reverse.dropWhile isSpace).reverse

/-- Whether the next character (if any) is whitespace; the `\s` lookahead used
to locate a split point of `(?<=[.!?])\s+`. -/
def nextIsSpace : List Char → Bool
  | d :: _ => isSpace d
  | [] => false

/-- One left-to-right pass of `re.split(r"(?<=[.!?])\s+", text)`
(`nllb_model.py` line 134).  `acc` is the piece being accumulated; `skip` is
true while consuming the remainder of a maximal whitespace run that followed a
sentence-ending character (the run already committed a split). -/
def sentGo : List Char → List Char → Bool → List (List Char)
  | [], acc, _ => [acc]
  | c :: rest, acc, skip =>
    if skip && isSpace c then
      sentGo rest acc true
    else if isSentEnd c && nextIsSpace rest then
      (acc ++ [c]) :: sentGo rest [] true
    else
      sentGo rest (acc ++ [c]) false

/-- The sentence list produced at `nllb_model.py` line 134:
`re.split(r"(?<=[.!?])\s+", (text or "").strip())`. -/
def sentencesOf (text : List Char) : List (List Char) :=
  sentGo (pyStrip text) [] false

/-- The greedy packing loop of `NLLBTranslator._split_by_sentences`
(`nllb_model.py` lines 138–149), folded over the sentence list.
`current` and `chunks` mirror the Python locals of the same names. -/
def chunkLoop (maxChars : Nat) : List (List Char) → List Char → List (List Char) → List (List Char)
  | [], current, chunks =>
      if current.isEmpty then chunks else chunks ++ [pyStrip current]
  | s :: rest, current, chunks =>
      if s.isEmpty then
        chunkLoop maxChars rest current chunks
      else if current.length + s.length ≤ maxChars then
        chunkLoop maxChars rest
          (if current.isEmpty then s else pyStrip (current ++ ' ' :: s)) chunks
      else
        chunkLoop maxChars rest s
          (if current.isEmpty then chunks else chunks ++ [pyStrip current])

/-- `NLLBTranslator._split_by_sentences` (`nllb_model.py` lines 130–151). -/
def split_by_sentences (text : List Char) (maxChars : Nat) : List (List Char) :=
  chunkLoop maxChars (sentencesOf text) [] []

/-- `" ".join` of a list of sentence strings; the shape every chunk assembled
by the packing loop has. -/
def joinSp : List (List Char) → List Char
  | [] => []
  | [s] => s
  | s :: rest => s ++ ' ' :: joinSp rest

/-- `"\n".join` of the per-chunk translation results
(`nllb_model.py` line 202). -/
def joinNL : List (List Char) → List Char
  | [] => []
  | [s] => s
  | s :: rest => s ++ '\n' :: joinNL rest

/-- `NLLBTranslator.translate` (`nllb_model.py` lines 153–202), with the
tokenizer + `model.generate` + decode round trip for one chunk abstracted as
the oracle `gen`.  Returns the translated text together with the number of
model inference calls performed. -/
def translate (gen : List Char → List Char) (text : List Char) (maxChars : Nat) :
    List Char × Nat :=
  let chunks := split_by_sentences text maxChars
  if chunks.isEmpty then ([], 0)
  else (joinNL (chunks.map fun c => pyStrip (gen c)), chunks.length)

/-! ## Transcriber: device selection and the compute-type fallback cascade -/

/-- A compute device, as the strings `"cuda"` / `"cpu"` of the source. -/
inductive Device
  | cuda
  | cpu
deriving DecidableEq, Repr

/-- A `compute_type` candidate of `faster-whisper` model construction. -/
inductive ComputeType
  | float16
  | float32
  | int8
deriving DecidableEq, Repr

/-- `transcriber.py` line 17. -/
def DEFAULT_WHISPER_MODEL : String := "medium"

/-- `transcriber.py` line 18 (a Python set; order is irrelevant). -/
def UNSAFE_LARGE_MODELS : List String := ["large", "large-v2"]

/-- The runtime environment probed by `transcriber.py`. -/
structure TranscriberEnv where
  /-- `import torch` succeeds (`_torch_cuda_available`, line 52). -/
  torchImportOk : Bool
  /-- `torch.cuda.is_available()` (line 53). -/
  torchSaysCudaAvailable : Bool
  /-- `os.name == "nt"` (lines 30, 77). -/
  osIsWindows : Bool
  /-- the `Path`/filesystem probing of `_cuda_wheels_present` raises (line 42). -/
  wheelsQueryFails : Bool
  /-- `<venv>/Lib/site-packages/nvidia/cuda_runtime/bin` exists (line 37). -/
  cudaRuntimeBinExists : Bool
  /-- `<venv>/Lib/site-packages/nvidia/cublas/bin` exists (line 38). -/
  cublasBinExists : Bool
  /-- `<venv>/Lib/site-packages/nvidia/cudnn/bin` exists (line 39). -/
  cudnnBinExists : Bool
deriving DecidableEq, Repr

/-- `_torch_cuda_available` (`transcriber.py` lines 46–55): true only when the
local torch import succeeds and torch reports CUDA available; any failure
resolves to `false`. -/
def torch_cuda_available (e : TranscriberEnv) : Bool :=
  e.torchImportOk && e.torchSaysCudaAvailable

/-- `_cuda_wheels_present` (`transcriber.py` lines 25–43). -/
def cuda_wheels_present (e : TranscriberEnv) : Bool :=
  if !e.osIsWindows then false
  else if e.wheelsQueryFails then false
  else e.cudaRuntimeBinExists || e.cublasBinExists || e.cudnnBinExists

/-- `_select_device_and_compute` (`transcriber.py` lines 58–70).  The
`modelName` argument is accepted and ignored exactly as in the source. -/
def select_device_and_compute (e : TranscriberEnv) (_modelName : String) :
    Device × ComputeType :=
  if torch_cuda_available e then (Device.cuda, ComputeType.float16)
  else (Device.cpu, ComputeType.int8)

/-- The fallback loop of `_init_model` (`transcriber.py` lines 144–171):
attempt each compute-type candidate in order; on failure log a warning naming
the failed configuration (collected here as the returned list) and remember
the error as `last_err`; on success return immediately; once the candidates
are exhausted, raise carrying `last_err`. -/
def initLoop {E M : Type} (attempt : ComputeType → Except E M) :
    List ComputeType → Option E → Except (Option E) M × List ComputeType
  | [], last => (Except.error last, [])
  | ct :: rest, _ =>
    match attempt ct with
    | Except.ok m => (Except.ok m, [])
    | Except.error e =>
      let r := initLoop attempt rest (some e)
      (r.1, ct :: r.2)

/-- The observable result of `_init_model` after the import guard. -/
structure InitModelResult (E M : Type) where
  /-- `requested_model = model_size or DEFAULT_WHISPER_MODEL` (line 117). -/
  requestedModel : String
  /-- `effective_model` after the large-model guard (lines 123–132). -/
  effectiveModel : String
  /-- the device decided once at line 120. -/
  device : Device
  /-- number of large-model substitution warnings logged (lines 125–131). -/
  substWarnings : Nat
  /-- `compute_candidates` (lines 139–142). -/
  candidates : List ComputeType
  /-- the compute types whose construction attempt failed, in the order their
  warnings were logged (lines 159–166). -/
  failedConfigs : List ComputeType
  /-- the returned model, or the raised error carrying `last_err` (line 168). -/
  outcome : Except (Option E) M
deriving Repr

/-- The body of `_init_model` (`transcriber.py` lines 117–171), after the
`WhisperModel is None` import guard of lines 114–115.  The `WhisperModel`
constructor is abstracted as the oracle `attempt`, applied to the effective
model name, device, and compute type (line 157).  The `set_cuda_paths` call at
lines 135–136 mutates `os.environ` only and is modelled separately. -/
def init_model_core {E M : Type} (e : TranscriberEnv) (model_size : String)
    (attempt : String → Device → ComputeType → Except E M) : InitModelResult E M :=
  let requested := if model_size = "" then DEFAULT_WHISPER_MODEL else model_size
  let dc := select_device_and_compute e requested
  let device := dc.1
  let preferred := dc.2
  let subst := device = Device.cuda ∧ requested ∈ UNSAFE_LARGE_MODELS
  let effective := if subst then DEFAULT_WHISPER_MODEL else requested
  let candidates :=
    if device = Device.cuda then [preferred, ComputeType.float32, ComputeType.int8]
    else [preferred, ComputeType.float32]
  let r := initLoop (attempt effective device) candidates none
  { requestedModel := requested
    effectiveModel := effective
    device := device
    substWarnings := if subst then 1 else 0
    candidates := candidates
    failedConfigs := r.2
    outcome := r.1 }

/-- `_init_model` (`transcriber.py` lines 105–171) including the import guard:
when `faster-whisper` is not installed a `RuntimeError` is raised before any
of the selection logic runs (modelled as `Except.error ()`). -/
def init_model {E M : Type} (installed : Bool) (e : TranscriberEnv)
    (model_size : String) (attempt : String → Device → ComputeType → Except E M) :
    Except Unit (InitModelResult E M) :=
  if installed then Except.ok (init_model_core e model_size attempt)
  else Except.error ()

/-! ## Transcriber: the per-file batch loop -/

/-- The output path recorded for a transcribed file: `output_dir / (stem + ".txt")`
(`transcriber.py` line 222), modelled by its stem. -/
def outPath (stem : String) : String := stem ++ ".txt"

/-- The error line logged when one file fails (`transcriber.py` line 227). -/
def errLine (stem : String) (msg : String) : String :=
  "[ERROR] Failed to transcribe " ++ stem ++ ".wav: " ++ msg

/-- The error line logged when the model cannot be loaded
(`transcriber.py` line 200). -/
def errLoadLine (msg : String) : String :=
  "[ERROR] Could not load Whisper model: " ++ msg

/-- Lexicographic code-point comparison of character lists: Python's `<` on
strings. -/
def charListLt : List Char → List Char → Bool
  | [], [] => false
  | [], _ :: _ => true
  | _ :: _, [] => false
  | a :: as, b :: bs =>
    if a.toNat < b.toNat then true
    else if b.toNat < a.toNat then false
    else charListLt as bs

/-- Python's `<` on strings. -/
def strLt (a b : String) : Bool := charListLt a.data b.data

/-- Insertion of a string into a sorted list (used to model Python's
`sorted`). -/
def insertSorted (s : String) : List String → List String
  | [] => [s]
  | t :: rest => if strLt t s then t :: insertSorted s rest else s :: t :: rest

/-- `sorted(...)` over file stems (`transcriber.py` line 204). -/
def sortStrings : List String → List String
  | [] => []
  | s :: rest => insertSorted s (sortStrings rest)

/-- The per-file loop of `transcribe_audio_files` (`transcriber.py` lines
209–228): each file is transcribed inside its own `try`/`except`; a success
appends the output path, a failure appends one error line naming the file and
the loop continues.  Returns (output paths, error lines), each in input
order. -/
def transcribeLoop (run : String → Except String String) :
    List String → List String × List String
  | [] => ([], [])
  | f :: rest =>
    let r := transcribeLoop run rest
    match run f with
    | Except.ok _ => (outPath f :: r.1, r.2)
    | Except.error e => (r.1, errLine f e :: r.2)

/-- `transcribe_audio_files` (`transcriber.py` lines 173–230), abstracting the
model load as `modelInit` and `model.transcribe` + segment concatenation for
one file as `run`.  The informational log lines (lines 206, 225, 229) are not
tracked; the returned second component is the list of `[ERROR]` lines. -/
def transcribe_audio_files {M : Type} (wavStems : List String)
    (modelInit : Except String M) (run : M → String → Except String String) :
    List String × List String :=
  match modelInit with
  | Except.error e => ([], [errLoadLine e])
  | Except.ok m => transcribeLoop (run m) (sortStrings wavStems)

/-! ## NLLB translator: model auto-selection and memory-budget override -/

/-- `nllb_model.py` line 29. -/
def DEFAULT_MODEL_SMALL : String := "facebook/nllb-200-distilled-600M"

/-- `nllb_model.py` line 30. -/
def DEFAULT_MODEL_LARGE : String := "facebook/nllb-200-3.3B"

/-- The torch/CUDA state probed by `nllb_model.py`. -/
structure NLLBEnv where
  /-- `torch.cuda.is_available()` (lines 43, 64). -/
  cudaAvailable : Bool
  /-- `torch.cuda.get_device_properties(0).total_memory`, in bytes (line 46). -/
  totalMemoryBytes : Nat
  /-- `get_device_properties` raises (caught at line 47). -/
  propsQueryFails : Bool
deriving DecidableEq, Repr

/-- `_cuda_total_gib` (`nllb_model.py` lines 41–48).  The byte count is far
below 2^53 on real hardware, so the Python float arithmetic
`total_memory / 1024**3` is exact and is embedded in `ℚ`. -/
def cuda_total_gib (e : NLLBEnv) : ℚ :=
  if !e.cudaAvailable then 0
  else if e.propsQueryFails then 0
  else (e.totalMemoryBytes : ℚ) / (1024 ^ 3 : ℚ)

/-- `_pick_model_name` (`nllb_model.py` lines 51–60).  A `None` or empty
requested name (both falsy in Python) triggers auto-selection. -/
def pick_model_name (e : NLLBEnv) (requested : Option String) : String :=
  let auto :=
    if cuda_total_gib e ≥ 16 then DEFAULT_MODEL_LARGE else DEFAULT_MODEL_SMALL
  match requested with
  | some r => if r = "" then auto else r
  | none => auto

/-- `_choose_device` (`nllb_model.py` lines 63–64). -/
def choose_device (e : NLLBEnv) : Device :=
  if e.cudaAvailable then Device.cuda else Device.cpu

/-- The device/model decisions of `NLLBTranslator.__init__`. -/
structure NLLBInitResult where
  device : Device
  modelName : String
  /-- memory-fallback warnings actually emitted (lines 99–103). -/
  memWarnings : Nat
deriving DecidableEq, Repr

/-- The device- and model-selection prefix of `NLLBTranslator.__init__`
(`nllb_model.py` lines 92–116): choose a device, pick the model, and apply the
memory-budget override of line 98, which forces the device to CPU (line 104)
and — only when a logger was supplied — logs one warning (lines 99–103). -/
def nllb_init (e : NLLBEnv) (model_name : Option String) (hasLog : Bool) :
    NLLBInitResult :=
  let device0 := choose_device e
  let chosen := pick_model_name e model_name
  let memFallback :=
    chosen = DEFAULT_MODEL_LARGE ∧ device0 = Device.cuda ∧ cuda_total_gib e < 16
  { device := if memFallback then Device.cpu else device0
    modelName := chosen
    memWarnings := if memFallback ∧ hasLog then 1 else 0 }

/-! ## Orchestrator: the acknowledgement gate of `run_selected_steps` -/

/-- The observable GUI state touched by `App.run_selected_steps`
(`main_window.py`).  `progress` is the progress-bar value, `maximum` its
`"maximum"` option; the counters record warning log lines, `"Starting: ..."`
lines, and step-method invocations. -/
structure OrchState where
  progress : Nat
  maximum : Nat
  warnLines : Nat
  startingLines : Nat
  invocations : Nat
deriving DecidableEq, Repr

/-- The sequential continuation chain `run_step` (`main_window.py` lines
276–284): each selected step logs `"Starting: <name>"`, is invoked (its own
work, an arbitrary state transformer, runs to completion before the
continuation fires), and the chain ends with `done`, which forces progress to
100. -/
def runChain : List (String × (OrchState → OrchState)) → OrchState → OrchState
  | [], st => { st with progress := 100 }
  | (_, f) :: rest, st =>
    runChain rest
      (f { st with startingLines := st.startingLines + 1,
                   invocations := st.invocations + 1 })

/-- `App.run_selected_steps` (`main_window.py` lines 263–284): without the
acknowledgement, one warning line is logged and nothing else happens;
otherwise the progress bar is reset, its maximum set to
`max 1 (number of selected steps)`, and the steps run strictly in order. -/
def run_selected_steps (acknowledged : Bool)
    (selectedSteps : List (String × (OrchState → OrchState)))
    (st : OrchState) : OrchState :=
  if !acknowledged then { st with warnLines := st.warnLines + 1 }
  else
    runChain selectedSteps
      { st with progress := 0, maximum := max 1 selectedSteps.length }

/-! ## `set_cuda_paths`: environment mutation for CUDA DLL discovery -/

/-- `os.environ` and the filesystem facts consulted by `set_cuda_paths`
(`transcriber.py` lines 72–103).  `path` is the `PATH` variable split on
`os.pathsep` (the empty variable is the empty list). -/
structure PathEnv where
  /-- `os.name == "nt"` (line 77). -/
  isWindows : Bool
  /-- the `try` body raises before any mutation (its only realistic failure
  points — `sys.executable` / `Path` resolution, lines 81–88 — precede the
  `os.environ` writes). -/
  bodyFails : Bool
  /-- `str(venv_base / "Lib" / "site-packages" / "nvidia")`. -/
  nvidiaBase : String
  /-- `nvidia_path / "cuda_runtime" / "bin"` exists (line 84). -/
  cudaRuntimeExists : Bool
  /-- `nvidia_path / "cublas" / "bin"` exists (line 85). -/
  cublasExists : Bool
  /-- `nvidia_path / "cudnn" / "bin"` exists (line 86). -/
  cudnnExists : Bool
  path : List String
  cudaPath : Option String
  cudaPathV124 : Option String
deriving DecidableEq, Repr

/-- The `to_prepend` list of `set_cuda_paths` (`transcriber.py` line 88): the
existing candidate DLL directories, in candidate order. -/
def toPrepend (e : PathEnv) : List String :=
  (if e.cudaRuntimeExists then [e.nvidiaBase ++ "\\cuda_runtime\\bin"] else []) ++
  (if e.cublasExists then [e.nvidiaBase ++ "\\cublas\\bin"] else []) ++
  (if e.cudnnExists then [e.nvidiaBase ++ "\\cudnn\\bin"] else [])

/-- `os.pathsep.join` on Windows. -/
def joinSep : List String → String
  | [] => ""
  | [s] => s
  | s :: rest => s ++ ";" ++ joinSep rest

/-- `set_cuda_paths` (`transcriber.py` lines 72–103).  Returns the new
environment together with (warning lines, info lines) logged.  The whole body
is wrapped in `try`/`except` which logs one warning and leaves the
environment unchanged on failure, so the function never propagates an
exception. -/
def set_cuda_paths (e : PathEnv) : PathEnv × Nat × Nat :=
  if !e.isWindows then (e, 0, 0)
  else if e.bodyFails then (e, 1, 0)
  else
    let tp := toPrepend e
    if tp.isEmpty then (e, 0, 0)
    else
      ({ e with
          path := tp ++ e.path
          cudaPath := some (e.cudaPath.getD (joinSep tp))
          cudaPathV124 := some (e.cudaPathV124.getD (joinSep tp)) }, 0, 1)

/-! ## Concrete inputs used to instantiate the theorems below -/

/-- The message carried by a failed per-file transcription attempt (and the
empty string on a success, where no error line is produced). -/
def errText : Except String String → String
  | Except.error e => e
  | Except.ok _ => ""

/-- A machine whose torch reports CUDA available but whose venv holds no CUDA
wheel DLL directories. -/
def envNoWheels : TranscriberEnv :=
  { torchImportOk := true, torchSaysCudaAvailable := true, osIsWindows := true,
    wheelsQueryFails := false, cudaRuntimeBinExists := false,
    cublasBinExists := false, cudnnBinExists := false }

/-- A CUDA-capable machine (wheels present). -/
def envCuda : TranscriberEnv :=
  { torchImportOk := true, torchSaysCudaAvailable := true, osIsWindows := true,
    wheelsQueryFails := false, cudaRuntimeBinExists := true,
    cublasBinExists := true, cudnnBinExists := true }

/-- A constructor oracle that fails on `float16` and succeeds on anything
else. -/
def attemptF16Fails : String → Device → ComputeType → Except String Nat :=
  fun _ _ ct =>
    match ct with
    | ComputeType.float16 => Except.error "cublas64_12.dll not found"
    | _ => Except.ok 7

/-- A constructor oracle that always succeeds. -/
def attemptOk : String → Device → ComputeType → Except String Nat :=
  fun _ _ _ => Except.ok 0

/-- A batch of three WAV file stems whose middle file fails to transcribe. -/
def wavStems3 : List String := ["s1", "s2", "s3"]

/-- A per-file transcription oracle failing exactly on `"s2"`. -/
def runFailS2 : Unit → String → Except String String :=
  fun _ f => if f = "s2" then Except.error "decode error" else Except.ok "text"

/-- A GPU with 8 GiB of memory (`8 * 1024^3` bytes). -/
def envGpu8GiB : NLLBEnv :=
  { cudaAvailable := true, totalMemoryBytes := 8589934592, propsQueryFails := false }

/-- An environment whose device-properties query raises. -/
def envPropsFail : NLLBEnv :=
  { cudaAvailable := true, totalMemoryBytes := 0, propsQueryFails := true }

/-- A Windows venv with one existing CUDA DLL directory, a nonempty `PATH`,
and no CUDA path variables set. -/
def pathEnvCex : PathEnv :=
  { isWindows := true, bodyFails := false, nvidiaBase := "N",
    cudaRuntimeExists := true, cublasExists := false, cudnnExists := false,
    path := ["C:\\Windows"], cudaPath := none, cudaPathV124 := none }

/-! ## Helper lemmas: whitespace, trimming, sentence well-formedness -/

/-- A string with no leading and no trailing whitespace (the state Python's
`str.strip` establishes and the sentence splitter preserves). -/
def Trimmed (s : List Char) : Prop :=
  (∀ c, s.head? = some c → isSpace c = false) ∧
  (∀ c, s.getLast? = some c → isSpace c = false)

theorem isSentEnd_not_isSpace {c : Char} (h : isSentEnd c = true) :
    isSpace c = false := by
  simp only [isSentEnd, Bool.or_eq_true, beq_iff_eq] at h
  rcases h with (h | h) | h <;> subst h <;> decide

theorem head?_dropWhile_not {α : Type} (p : α → Bool) :
    ∀ (l : List α) {c : α}, (l.dropWhile p).head? = some c → p c = false
  | [], c, h => by simp [List.dropWhile] at h
  | a :: rest, c, h => by
    by_cases ha : p a
    · rw [List.dropWhile_cons_of_pos ha] at h
      exact head?_dropWhile_not p rest h
    · rw [List.dropWhile_cons_of_neg ha] at h
      simp only [List.head?_cons, Option.some.injEq] at h
      subst h
      exact Bool.eq_false_iff.mpr ha

theorem getLast?_dropWhile_of_ne_nil {α : Type} (p : α → Bool) :
    ∀ (l : List α), l.dropWhile p ≠ [] →
      (l.dropWhile p).getLast? = l.getLast?
  | [], h => absurd rfl h
  | a :: rest, h => by
    by_cases ha : p a
    · rw [List.dropWhile_cons_of_pos ha] at h ⊢
      have hrest : rest ≠ [] := by
        intro he
        exact h (by simp [he, List.dropWhile])
      rw [getLast?_dropWhile_of_ne_nil p rest h]
      obtain ⟨b, t, rfl⟩ : ∃ b t, rest = b :: t := by
        cases rest with
        | nil => exact absurd rfl hrest
        | cons b t => exact ⟨b, t, rfl⟩
      exact (List.getLast?_cons_cons ..).symm
    · rw [List.dropWhile_cons_of_neg ha]

theorem dropWhile_eq_self_of_head {α : Type} (p : α → Bool) (l : List α)
    (h : ∀ c, l.head? = some c → p c = false) : l.dropWhile p = l := by
  cases l with
  | nil => rfl
  | cons a t => exact List.dropWhile_cons_of_neg (by simp [h a rfl])

theorem pyStrip_head? (s : List Char) :
    ∀ c, (pyStrip s).head? = some c → isSpace c = false := by
  intro c hc
  unfold pyStrip at hc
  rw [List.head?_reverse] at hc
  by_cases hW : ((s.dropWhile isSpace).reverse.dropWhile isSpace) = []
  · rw [hW] at hc
    simp at hc
  · rw [getLast?_dropWhile_of_ne_nil isSpace _ hW, List.getLast?_reverse] at hc
    exact head?_dropWhile_not isSpace s hc

theorem pyStrip_getLast? (s : List Char) :
    ∀ c, (pyStrip s).getLast? = some c → isSpace c = false := by
  intro c hc
  unfold pyStrip at hc
  rw [List.getLast?_reverse] at hc
  exact head?_dropWhile_not isSpace _ hc

theorem trimmed_pyStrip (s : List Char) : Trimmed (pyStrip s) :=
  ⟨pyStrip_head? s, pyStrip_getLast? s⟩

theorem pyStrip_eq_self {s : List Char} (h : Trimmed s) : pyStrip s = s := by
  unfold pyStrip
  rw [dropWhile_eq_self_of_head isSpace s h.1,
      dropWhile_eq_self_of_head isSpace s.reverse
        (by intro c hc; rw [List.head?_reverse] at hc; exact h.2 c hc),
      List.reverse_reverse]

theorem trimmed_join {a b : List Char} (ha : Trimmed a) (hb : Trimmed b)
    (hna : a ≠ []) (hnb : b ≠ []) : Trimmed (a ++ ' ' :: b) := by
  constructor
  · intro c hc
    rw [List.head?_append_of_ne_nil a hna] at hc
    exact ha.1 c hc
  · intro c hc
    rw [List.getLast?_append_cons] at hc
    obtain ⟨d, t, rfl⟩ : ∃ d t, b = d :: t := by
      cases b with
      | nil => exact absurd rfl hnb
      | cons d t => exact ⟨d, t, rfl⟩
    rw [List.getLast?_cons_cons] at hc
    exact hb.2 c hc

theorem pyStrip_join {a b : List Char} (ha : Trimmed a) (hb : Trimmed b)
    (hna : a ≠ []) (hnb : b ≠ []) : pyStrip (a ++ ' ' :: b) = a ++ ' ' :: b :=
  pyStrip_eq_self (trimmed_join ha hb hna hnb)

theorem sentGo_noLead :
    ∀ (l acc : List Char) (skip : Bool),
      (∀ c, acc.head? = some c → isSpace c = false) →
      (skip = false → acc = [] → ∀ c, l.head? = some c → isSpace c = false) →
      ∀ p ∈ sentGo l acc skip, ∀ c, p.head? = some c → isSpace c = false
  | [], acc, skip, hacc, _, p, hp, c, hc => by
    simp only [sentGo, List.mem_singleton] at hp
    subst hp
    exact hacc c hc
  | ch :: rest, acc, skip, hacc, hstart, p, hp, c, hc => by
    by_cases h1 : (skip && isSpace ch) = true
    · rw [sentGo, if_pos h1] at hp
      refine sentGo_noLead rest acc true hacc ?_ p hp c hc
      intro hfalse
      simp at hfalse
    · by_cases h2 : (isSentEnd ch && nextIsSpace rest) = true
      · rw [sentGo, if_neg h1, if_pos h2] at hp
        rcases List.mem_cons.mp hp with rfl | hp'
        · cases acc with
          | nil =>
            simp only [List.nil_append, List.head?_cons, Option.some.injEq] at hc
            subst hc
            exact isSentEnd_not_isSpace (Bool.and_eq_true .. ▸ h2).1
          | cons a t =>
            rw [List.head?_append_of_ne_nil _ (by simp)] at hc
            exact hacc c hc
        · refine sentGo_noLead rest [] true (by simp) ?_ p hp' c hc
          intro hfalse
          simp at hfalse
      · rw [sentGo, if_neg h1, if_neg h2] at hp
        refine sentGo_noLead rest (acc ++ [ch]) false ?_ ?_ p hp c hc
        · intro d hd
          cases acc with
          | nil =>
            simp only [List.nil_append, List.head?_cons, Option.some.injEq] at hd
            subst hd
            cases hskip : skip with
            | true =>
              have hns : ¬ isSpace ch = true := by
                intro hs
                exact h1 (by rw [hskip, hs]; rfl)
              exact Bool.eq_false_iff.mpr hns
            | false => exact hstart hskip rfl ch rfl
          | cons a t =>
            rw [List.head?_append_of_ne_nil _ (by simp)] at hd
            exact hacc d hd
        · intro _ habs
          exact absurd habs (by simp)

theorem sentGo_noTrail :
    ∀ (l acc : List Char) (skip : Bool),
      (∀ c, (acc ++ l).getLast? = some c → isSpace c = false) →
      ∀ p ∈ sentGo l acc skip, ∀ c, p.getLast? = some c → isSpace c = false
  | [], acc, skip, h, p, hp, c, hc => by
    simp only [sentGo, List.mem_singleton] at hp
    subst hp
    exact h c (by rw [List.append_nil] at *; exact hc)
  | ch :: rest, acc, skip, h, p, hp, c, hc => by
    have hrest : rest ≠ [] →
        ∀ c, rest.getLast? = some c → isSpace c = false := by
      intro hne d hd
      obtain ⟨r, rs, rfl⟩ : ∃ r rs, rest = r :: rs := by
        cases rest with
        | nil => exact absurd rfl hne
        | cons r rs => exact ⟨r, rs, rfl⟩
      refine h d ?_
      rw [List.getLast?_append_cons, List.getLast?_cons_cons]
      exact hd
    by_cases h1 : (skip && isSpace ch) = true
    · rw [sentGo, if_pos h1] at hp
      refine sentGo_noTrail rest acc true ?_ p hp c hc
      intro d hd
      rcases hre : rest with _ | ⟨r, rs⟩
      · have hch : isSpace ch = false :=
          h ch (by rw [hre, List.getLast?_concat])
        have hch' : isSpace ch = true := (Bool.and_eq_true .. ▸ h1).2
        rw [hch'] at hch
        exact absurd hch (by simp)
      · rw [hre, List.getLast?_append_cons] at hd
        refine h d ?_
        rw [hre, List.getLast?_append_cons, List.getLast?_cons_cons]
        exact hd
    · by_cases h2 : (isSentEnd ch && nextIsSpace rest) = true
      · rw [sentGo, if_neg h1, if_pos h2] at hp
        rcases List.mem_cons.mp hp with rfl | hp'
        · rw [List.getLast?_concat] at hc
          cases hc
          exact isSentEnd_not_isSpace (Bool.and_eq_true .. ▸ h2).1
        · refine sentGo_noTrail rest [] true ?_ p hp' c hc
          intro d hd
          rw [List.nil_append] at hd
          refine hrest ?_ d hd
          intro he
          rw [he] at hd
          simp at hd
      · rw [sentGo, if_neg h1, if_neg h2] at hp
        refine sentGo_noTrail rest (acc ++ [ch]) false ?_ p hp c hc
        intro d hd
        rw [List.append_assoc, List.singleton_append] at hd
        exact h d hd

theorem sentencesOf_trimmed (t : List Char) : ∀ p ∈ sentencesOf t, Trimmed p := by
  intro p hp
  constructor
  · refine sentGo_noLead (pyStrip t) [] false (by simp) ?_ p hp
    intro _ _
    exact pyStrip_head? t
  · refine sentGo_noTrail (pyStrip t) [] false ?_ p hp
    intro c hc
    rw [List.nil_append] at hc
    exact pyStrip_getLast? t c hc

/-! ## Helper lemmas: chunks as space-joins of whole sentences -/

theorem joinSp_append_singleton :
    ∀ (P : List (List Char)) (s : List Char), P ≠ [] →
      joinSp (P ++ [s]) = joinSp P ++ ' ' :: s
  | [], _, h => absurd rfl h
  | [a], s, _ => rfl
  | a :: b :: rest, s, _ => by
    have ih := joinSp_append_singleton (b :: rest) s (by simp)
    calc joinSp ((a :: b :: rest) ++ [s])
        = a ++ ' ' :: joinSp ((b :: rest) ++ [s]) := rfl
      _ = a ++ ' ' :: (joinSp (b :: rest) ++ ' ' :: s) := by rw [ih]
      _ = (a ++ ' ' :: joinSp (b :: rest)) ++ ' ' :: s := by
            rw [List.append_assoc, List.cons_append]
      _ = joinSp (a :: b :: rest) ++ ' ' :: s := rfl

theorem joinSp_ne_nil :
    ∀ (P : List (List Char)), P ≠ [] → (∀ s ∈ P, s ≠ []) → joinSp P ≠ []
  | [], h, _ => absurd rfl h
  | [a], _, hs => by simpa [joinSp] using hs a (by simp)
  | a :: b :: rest, _, _ => by simp [joinSp]

theorem joinSp_trimmed :
    ∀ (P : List (List Char)), (∀ s ∈ P, s ≠ [] ∧ Trimmed s) → P ≠ [] →
      Trimmed (joinSp P)
  | [], _, h => absurd rfl h
  | [a], hs, _ => by simpa [joinSp] using (hs a (by simp)).2
  | a :: b :: rest, hs, _ => by
    have ha := hs a (by simp)
    have hrest : ∀ s ∈ b :: rest, s ≠ [] ∧ Trimmed s := by
      intro s hmem
      exact hs s (by simp [hmem])
    have htail := joinSp_trimmed (b :: rest) hrest (by simp)
    have hne := joinSp_ne_nil (b :: rest) (by simp) (fun s hmem => (hrest s hmem).1)
    simpa [joinSp] using trimmed_join ha.2 htail ha.1 hne

theorem joinSp_eq_nil {P : List (List Char)} (hs : ∀ s ∈ P, s ≠ [])
    (h : joinSp P = []) : P = [] := by
  by_contra hne
  exact joinSp_ne_nil P hne hs h

/-- The length of a space-join of one more sentence. -/
theorem length_joinSp_append (P : List (List Char)) (s : List Char) (h : P ≠ []) :
    (joinSp (P ++ [s])).length = (joinSp P).length + 1 + s.length := by
  rw [joinSp_append_singleton P s h]
  simp [Nat.add_assoc, Nat.add_comm 1 s.length]

/-- Invariant of the greedy packing loop (`nllb_model.py` lines 138–149): when
`current` is the space-join of the pending sentence group `curPart`, the final
chunk list extends `chunks` with space-joins of consecutive sentence groups
that exactly cover `curPart` followed by the remaining nonempty sentences, and
every emitted group is either within `maxChars + 1` characters or a single
oversized sentence. -/
theorem chunkLoop_spec (maxChars : Nat) :
    ∀ (S : List (List Char)) (curPart : List (List Char)) (chunks : List (List Char)),
      (∀ s ∈ S, Trimmed s) →
      (∀ s ∈ curPart, s ≠ [] ∧ Trimmed s) →
      (curPart = [] ∨ (∃ s, curPart = [s]) ∨ (joinSp curPart).length ≤ maxChars + 1) →
      ∃ parts : List (List (List Char)),
        chunkLoop maxChars S (joinSp curPart) chunks = chunks ++ parts.map joinSp ∧
        parts.flatten = curPart ++ S.filter (fun s => !s.isEmpty) ∧
        ∀ p ∈ parts, p ≠ [] ∧ (∀ s ∈ p, s ≠ [] ∧ Trimmed s) ∧
          ((joinSp p).length ≤ maxChars + 1 ∨ ∃ s, p = [s] ∧ maxChars < s.length) := by
  intro S
  induction S with
  | nil =>
    intro curPart chunks _ hWF hinv
    by_cases hcp : curPart = []
    · subst hcp
      exact ⟨[], by simp [chunkLoop, joinSp], by simp, by simp⟩
    · have hne : joinSp curPart ≠ [] :=
        joinSp_ne_nil curPart hcp (fun s hs => (hWF s hs).1)
      have htr : Trimmed (joinSp curPart) := joinSp_trimmed curPart hWF hcp
      refine ⟨[curPart], ?_, by simp, ?_⟩
      · rw [chunkLoop, if_neg (by simpa [List.isEmpty_iff] using hne),
          pyStrip_eq_self htr]
        simp
      · intro p hp
        rw [List.mem_singleton] at hp
        subst hp
        refine ⟨hcp, hWF, ?_⟩
        by_cases hlen : (joinSp p).length ≤ maxChars + 1
        · exact Or.inl hlen
        · rcases hinv with h | ⟨s, rfl⟩ | h
          · exact absurd h hcp
          · refine Or.inr ⟨s, rfl, ?_⟩
            have : maxChars + 1 < (joinSp [s]).length := Nat.lt_of_not_le hlen
            simp only [joinSp] at this ⊢
            omega
          · exact absurd h hlen
  | cons s rest ih =>
    intro curPart chunks hS hWF hinv
    have hs : Trimmed s := hS s (by simp)
    have hrestS : ∀ t ∈ rest, Trimmed t := fun t ht => hS t (by simp [ht])
    by_cases hse : s.isEmpty
    · rw [chunkLoop, if_pos hse]
      obtain ⟨parts, h1, h2, h3⟩ := ih curPart chunks hrestS hWF hinv
      exact ⟨parts, h1, by simpa [List.filter_cons, hse] using h2, h3⟩
    · have hsne : s ≠ [] := by simpa [List.isEmpty_iff] using hse
      by_cases hcp : curPart = []
      · subst hcp
        obtain ⟨parts, h1, h2, h3⟩ :=
          ih [s] chunks hrestS (by simp [hsne, hs]) (Or.inr (Or.inl ⟨s, rfl⟩))
        by_cases hfit : (joinSp ([] : List (List Char))).length + s.length ≤ maxChars
        · rw [chunkLoop, if_neg hse, if_pos hfit,
            if_pos (show (joinSp ([] : List (List Char))).isEmpty = true from rfl)]
          exact ⟨parts, h1, by simpa [List.filter_cons, hse] using h2, h3⟩
        · rw [chunkLoop, if_neg hse, if_neg hfit,
            if_pos (show (joinSp ([] : List (List Char))).isEmpty = true from rfl)]
          exact ⟨parts, h1, by simpa [List.filter_cons, hse] using h2, h3⟩
      · have hne : joinSp curPart ≠ [] :=
          joinSp_ne_nil curPart hcp (fun t ht => (hWF t ht).1)
       -- the Python `current` is nonempty here
        have htr : Trimmed (joinSp curPart) := joinSp_trimmed curPart hWF hcp
        by_cases hfit : (joinSp curPart).length + s.length ≤ maxChars
        · rw [chunkLoop, if_neg hse, if_pos hfit,
            if_neg (by simpa [List.isEmpty_iff] using hne),
            pyStrip_join htr hs hne hsne,
            show joinSp curPart ++ ' ' :: s = joinSp (curPart ++ [s]) from
              (joinSp_append_singleton curPart s hcp).symm]
          have hWF' : ∀ t ∈ curPart ++ [s], t ≠ [] ∧ Trimmed t := by
            intro t ht
            rcases List.mem_append.mp ht with h | h
            · exact hWF t h
            · rw [List.mem_singleton] at h
              subst h
              exact ⟨hsne, hs⟩
          have hinv' : curPart ++ [s] = [] ∨ (∃ t, curPart ++ [s] = [t]) ∨
              (joinSp (curPart ++ [s])).length ≤ maxChars + 1 := by
            refine Or.inr (Or.inr ?_)
            rw [length_joinSp_append curPart s hcp]
            omega
          obtain ⟨parts, h1, h2, h3⟩ := ih (curPart ++ [s]) chunks hrestS hWF' hinv'
          refine ⟨parts, h1, ?_, h3⟩
          rw [h2, List.filter_cons, if_pos (by simpa using hse), List.append_assoc,
            List.singleton_append]
        · rw [chunkLoop, if_neg hse, if_neg hfit,
            if_neg (by simpa [List.isEmpty_iff] using hne),
            pyStrip_eq_self htr]
          obtain ⟨parts, h1, h2, h3⟩ :=
            ih [s] (chunks ++ [joinSp curPart]) hrestS (by simp [hsne, hs])
              (Or.inr (Or.inl ⟨s, rfl⟩))
          rw [show joinSp [s] = s from rfl] at h1
          refine ⟨curPart :: parts, ?_, ?_, ?_⟩
          · rw [h1, List.map_cons, List.append_assoc, List.singleton_append]
          · rw [List.flatten_cons, h2, List.filter_cons, if_pos (by simpa using hse),
              List.singleton_append]
          · intro p hp
            rcases List.mem_cons.mp hp with rfl | hp'
            · refine ⟨hcp, hWF, ?_⟩
              by_cases hlen : (joinSp p).length ≤ maxChars + 1
              · exact Or.inl hlen
              · rcases hinv with h | ⟨t, rfl⟩ | h
                · exact absurd h hcp
                · refine Or.inr ⟨t, rfl, ?_⟩
                  have : maxChars + 1 < (joinSp [t]).length := Nat.lt_of_not_le hlen
                  simp only [joinSp] at this ⊢
                  omega
                · exact absurd h hlen
            · exact h3 p hp'

/-! ## Helper lemmas: the compute-type fallback loop -/

/-- Unfolding equation of the fallback loop: a succeeding candidate returns
immediately with no further failed configurations. -/
theorem initLoop_cons_ok {E M : Type} (attempt : ComputeType → Except E M)
    (ct : ComputeType) (rest : List ComputeType) (last : Option E) (m : M)
    (hat : attempt ct = Except.ok m) :
    initLoop attempt (ct :: rest) last = (Except.ok m, []) := by
  simp only [initLoop, hat]

/-- Unfolding equation of the fallback loop: a failing candidate is recorded
and the loop advances with the failure remembered as `last_err`. -/
theorem initLoop_cons_error {E M : Type} (attempt : ComputeType → Except E M)
    (ct : ComputeType) (rest : List ComputeType) (last : Option E) (e : E)
    (hat : attempt ct = Except.error e) :
    initLoop attempt (ct :: rest) last =
      ((initLoop attempt rest (some e)).1, ct :: (initLoop attempt rest (some e)).2) := by
  simp only [initLoop, hat]

/-- The fallback loop succeeds with model `m` and failed-candidate list `fs`
exactly when the candidate list splits as `fs ++ c :: post` with every
candidate of `fs` failing and `c` the first success. -/
theorem initLoop_ok_iff {E M : Type} (attempt : ComputeType → Except E M) :
    ∀ (cands : List ComputeType) (last : Option E) (m : M) (fs : List ComputeType),
      initLoop attempt cands last = (Except.ok m, fs) ↔
        ∃ c post, cands = fs ++ c :: post ∧
          (∀ x ∈ fs, ∃ err, attempt x = Except.error err) ∧
          attempt c = Except.ok m
  | [], last, m, fs => by
    constructor
    · intro h
      simp [initLoop] at h
    · rintro ⟨c, post, hcands, -, -⟩
      exact absurd hcands (by simp)
  | ct :: rest, last, m, fs => by
    rcases hat : attempt ct with e | m'
    · rcases hres : initLoop attempt rest (some e) with ⟨o, fs'⟩
      have heq : initLoop attempt (ct :: rest) last = (o, ct :: fs') := by
        rw [initLoop_cons_error attempt ct rest last e hat, hres]
      rw [heq]
      constructor
      · intro h
        obtain ⟨h1, h2⟩ := Prod.mk.injEq .. ▸ h
        subst h1
        subst h2
        obtain ⟨c, post, hc1, hc2, hc3⟩ :=
          (initLoop_ok_iff attempt rest (some e) m fs').mp hres
        refine ⟨c, post, by rw [List.cons_append, hc1], ?_, hc3⟩
        intro x hx
        rcases List.mem_cons.mp hx with rfl | hx'
        · exact ⟨e, hat⟩
        · exact hc2 x hx'
      · rintro ⟨c, post, hcands, hpre, hc⟩
        cases fs with
        | nil =>
          rw [List.nil_append] at hcands
          obtain ⟨h1, -⟩ := List.cons_eq_cons.mp hcands
          subst h1
          rw [hat] at hc
          exact absurd hc (by simp)
        | cons x fs'' =>
          rw [List.cons_append] at hcands
          obtain ⟨h1, hrest⟩ := List.cons_eq_cons.mp hcands
          subst h1
          have hloop := (initLoop_ok_iff attempt rest (some e) m fs'').mpr
            ⟨c, post, hrest, fun y hy => hpre y (List.mem_cons_of_mem _ hy), hc⟩
          rw [hres] at hloop
          obtain ⟨h1, h2⟩ := Prod.mk.injEq .. ▸ hloop
          rw [h1, h2]
    · have heq := initLoop_cons_ok attempt ct rest last m' hat
      rw [heq]
      constructor
      · intro h
        obtain ⟨h1, h2⟩ := Prod.mk.injEq .. ▸ h
        cases h1
        exact ⟨ct, rest, by rw [← h2, List.nil_append], by simp [← h2], hat⟩
      · rintro ⟨c, post, hcands, hpre, hc⟩
        cases fs with
        | nil =>
          rw [List.nil_append] at hcands
          obtain ⟨h1, h2⟩ := List.cons_eq_cons.mp hcands
          subst h1
          rw [hat] at hc
          obtain rfl := Except.ok.injEq .. ▸ hc
          rfl
        | cons x fs'' =>
          rw [List.cons_append] at hcands
          obtain ⟨h1, -⟩ := List.cons_eq_cons.mp hcands
          subst h1
          obtain ⟨err, herr⟩ := hpre ct (by simp)
          rw [hat] at herr
          exact absurd herr (by simp)

/-- If every candidate fails, the fallback loop fails, reports every candidate
as a failed configuration, and carries the error of the last candidate (or the
inherited `last` when there are no candidates). -/
theorem initLoop_error_of_all_fail {E M : Type} (attempt : ComputeType → Except E M) :
    ∀ (cands : List ComputeType) (last : Option E),
      (∀ c ∈ cands, ∃ err, attempt c = Except.error err) →
      ∃ l, initLoop attempt cands last = (Except.error l, cands) ∧
        (cands = [] → l = last) ∧
        (∀ c, cands.getLast? = some c → ∃ err, attempt c = Except.error err ∧ l = some err)
  | [], last, _ => ⟨last, rfl, fun _ => rfl, by simp⟩
  | ct :: rest, last, h => by
    obtain ⟨e, hat⟩ := h ct (by simp)
    obtain ⟨l, hl, hnil, hlast⟩ :=
      initLoop_error_of_all_fail attempt rest (some e)
        (fun c hc => h c (by simp [hc]))
    refine ⟨l, ?_, by simp, ?_⟩
    · rw [initLoop_cons_error attempt ct rest last e hat, hl]
    · intro c hc
      cases rest with
      | nil =>
        obtain rfl : ct = c := by simpa using hc
        exact ⟨e, hat, hnil rfl⟩
      | cons r rs =>
        rw [List.getLast?_cons_cons] at hc
        exact hlast c hc

/-- Conversely, a failing fallback loop means every candidate failed, and the
failed-configuration list is the whole candidate list. -/
theorem initLoop_all_fail_of_error {E M : Type} (attempt : ComputeType → Except E M) :
    ∀ (cands : List ComputeType) (last : Option E) (l : Option E) (fs : List ComputeType),
      initLoop attempt cands last = (Except.error l, fs) →
      (∀ c ∈ cands, ∃ err, attempt c = Except.error err) ∧ fs = cands
  | [], last, l, fs, h => by
    obtain ⟨-, h2⟩ := Prod.mk.injEq .. ▸ h
    exact ⟨by simp, h2.symm⟩
  | ct :: rest, last, l, fs, h => by
    rcases hat : attempt ct with e | m'
    · rcases hres : initLoop attempt rest (some e) with ⟨o, fs'⟩
      rw [initLoop_cons_error attempt ct rest last e hat, hres] at h
      obtain ⟨h1, h2⟩ := Prod.mk.injEq .. ▸ h
      subst h1
      obtain ⟨hall, hfs⟩ :=
        initLoop_all_fail_of_error attempt rest (some e) l fs' hres
      constructor
      · intro c hc
        rcases List.mem_cons.mp hc with rfl | hc'
        · exact ⟨e, hat⟩
        · exact hall c hc'
      · rw [← h2, hfs]
    · rw [initLoop_cons_ok attempt ct rest last m' hat] at h
      obtain ⟨h1, -⟩ := Prod.mk.injEq .. ▸ h
      exact absurd h1 (by simp)

/-! ## Helper lemmas: the per-file transcription loop -/

/-- The per-file loop returns exactly the output paths of the successful files
and exactly one error line, naming the file, per failed file — in order. -/
theorem transcribeLoop_spec (run : String → Except String String) :
    ∀ files : List String,
      (transcribeLoop run files).1 =
        (files.filter fun f => (run f).isOk).map outPath ∧
      (transcribeLoop run files).2 =
        (files.filter fun f => !(run f).isOk).map
          (fun f => errLine f (errText (run f)))
  | [] => ⟨rfl, rfl⟩
  | f :: rest => by
    obtain ⟨ih1, ih2⟩ := transcribeLoop_spec run rest
    rcases hf : run f with e | t
    · constructor
      · rw [transcribeLoop, hf]
        simpa [List.filter_cons, hf, Except.isOk, Except.toBool] using ih1
      · rw [transcribeLoop, hf]
        simpa [List.filter_cons, hf, Except.isOk, Except.toBool, errText] using ih2
    · constructor
      · rw [transcribeLoop, hf]
        simpa [List.filter_cons, hf, Except.isOk, Except.toBool] using ih1
      · rw [transcribeLoop, hf]
        simpa [List.filter_cons, hf, Except.isOk, Except.toBool] using ih2

/-! ## Claim theorems -/

/-- Claim C1, counterexample: the claim as stated fails on the code.  With
`maxChars = 5` and input `"ab. c."`, `_split_by_sentences` emits the single
chunk `"ab. c."` of length `6 > 5` built from two sentences (the packing guard
`len(current) + len(sentence) <= max_chars` does not count the joining
space), so the chunk neither fits in `maxChars` nor is a single sentence. -/
theorem split_by_sentences_claim_counterexample :
    ¬ (∀ chunk ∈ split_by_sentences ['a', 'b', '.', ' ', 'c', '.'] 5,
        chunk.length ≤ 5 ∨
          (chunk ∈ sentencesOf ['a', 'b', '.', ' ', 'c', '.'] ∧ 5 < chunk.length)) := by
  decide

/-- Claim C1 (amended): for every input text and every `maxChars ≥ 1`, the
chunks produced by `_split_by_sentences` are the space-joins of consecutive
groups of whole sentences that exactly cover the nonempty sentences of the
text in order — so a sentence is never split across two chunks — and every
chunk either has length at most `maxChars + 1` (the `+ 1` being the joining
space the guard does not count) or consists of a single sentence whose own
length exceeds `maxChars`. -/
theorem split_by_sentences_chunks (text : List Char) (maxChars : Nat)
    (_h : 1 ≤ maxChars) :
    ∃ parts : List (List (List Char)),
      split_by_sentences text maxChars = parts.map joinSp ∧
      parts.flatten = (sentencesOf text).filter (fun s => !s.isEmpty) ∧
      ∀ p ∈ parts, p ≠ [] ∧
        ((joinSp p).length ≤ maxChars + 1 ∨ ∃ s, p = [s] ∧ maxChars < s.length) := by
  obtain ⟨parts, h1, h2, h3⟩ :=
    chunkLoop_spec maxChars (sentencesOf text) [] [] (sentencesOf_trimmed text)
      (by simp) (Or.inl rfl)
  refine ⟨parts, ?_, by simpa using h2,
    fun p hp => ⟨(h3 p hp).1, (h3 p hp).2.2⟩⟩
  rw [split_by_sentences]
  simpa using h1

/-- Claim C1, witness: the amended theorem instantiated at the
counterexample input. -/
theorem split_by_sentences_chunks_witness :
    ∃ parts : List (List (List Char)),
      split_by_sentences ['a', 'b', '.', ' ', 'c', '.'] 5 = parts.map joinSp ∧
      parts.flatten =
        (sentencesOf ['a', 'b', '.', ' ', 'c', '.']).filter (fun s => !s.isEmpty) ∧
      ∀ p ∈ parts, p ≠ [] ∧
        ((joinSp p).length ≤ 5 + 1 ∨ ∃ s, p = [s] ∧ 5 < s.length) :=
  split_by_sentences_chunks ['a', 'b', '.', ' ', 'c', '.'] 5 (by decide)

/-- Claim C2: contrary to its own documentation (and the spec),
`_select_device_and_compute` consults only the torch availability check.  On a
machine where torch reports CUDA available but no CUDA wheel DLL directory
exists (`_cuda_wheels_present` is false), it still selects CUDA. -/
theorem select_device_ignores_wheels :
    cuda_wheels_present envNoWheels = false ∧
      torch_cuda_available envNoWheels = true ∧
      select_device_and_compute envNoWheels "medium" =
        (Device.cuda, ComputeType.float16) :=
  ⟨rfl, rfl, rfl⟩

/-- Claim C7: `run_selected_steps` with `acknowledged = false` adds exactly
one warning log line and changes nothing else: no step is invoked, no
`Starting:` line is logged, and the progress value (and the bar maximum) keep
their values from before the call. -/
theorem run_selected_steps_not_acknowledged
    (steps : List (String × (OrchState → OrchState))) (st : OrchState) :
    run_selected_steps false steps st = { st with warnLines := st.warnLines + 1 } ∧
    (run_selected_steps false steps st).progress = st.progress ∧
    (run_selected_steps false steps st).invocations = st.invocations ∧
    (run_selected_steps false steps st).warnLines = st.warnLines + 1 :=
  ⟨rfl, rfl, rfl, rfl⟩

/-- Claim C9: translating the empty string returns the empty string and
performs zero model inference calls, whatever the model oracle and the
`maxChars` bound. -/
theorem translate_empty (gen : List Char → List Char) (maxChars : Nat) :
    translate gen [] maxChars = ([], 0) := rfl

/-- Claim C3: `_init_model` tries the compute-type candidates in the order
initial precision, `float32`, and — on CUDA only — `int8`; it logs one warning
per failed candidate, naming the failed configuration (`failedConfigs` lists
them in order); it returns the first successfully constructed model
immediately (the candidates split into the failed prefix, the first success,
and the untried rest); and it raises an error carrying the last underlying
failure if and only if every candidate fails. -/
theorem init_model_fallback {E M : Type} (e : TranscriberEnv) (model_size : String)
    (attempt : String → Device → ComputeType → Except E M) :
    (init_model_core e model_size attempt).candidates =
        (select_device_and_compute e
            (init_model_core e model_size attempt).requestedModel).2
          :: ComputeType.float32
          :: (if (init_model_core e model_size attempt).device = Device.cuda
              then [ComputeType.int8] else []) ∧
    (∀ (m : M) (fs : List ComputeType),
      ((init_model_core e model_size attempt).outcome = Except.ok m ∧
        (init_model_core e model_size attempt).failedConfigs = fs) ↔
        ∃ c post, (init_model_core e model_size attempt).candidates = fs ++ c :: post ∧
          (∀ x ∈ fs, ∃ err,
            attempt (init_model_core e model_size attempt).effectiveModel
              (init_model_core e model_size attempt).device x = Except.error err) ∧
          attempt (init_model_core e model_size attempt).effectiveModel
            (init_model_core e model_size attempt).device c = Except.ok m) ∧
    ((∃ l, (init_model_core e model_size attempt).outcome = Except.error l) ↔
      ∀ c ∈ (init_model_core e model_size attempt).candidates, ∃ err,
        attempt (init_model_core e model_size attempt).effectiveModel
          (init_model_core e model_size attempt).device c = Except.error err) ∧
    (∀ l, (init_model_core e model_size attempt).outcome = Except.error l →
      (init_model_core e model_size attempt).failedConfigs =
        (init_model_core e model_size attempt).candidates ∧
      ∃ c err,
        (init_model_core e model_size attempt).candidates.getLast? = some c ∧
        attempt (init_model_core e model_size attempt).effectiveModel
          (init_model_core e model_size attempt).device c = Except.error err ∧
        l = some err) := by
  have hpair :
      ((init_model_core e model_size attempt).outcome,
        (init_model_core e model_size attempt).failedConfigs) =
      initLoop (attempt (init_model_core e model_size attempt).effectiveModel
          (init_model_core e model_size attempt).device)
        (init_model_core e model_size attempt).candidates none := rfl
  refine ⟨?_, ?_, ?_, ?_⟩
  · unfold init_model_core select_device_and_compute torch_cuda_available
    rcases e.torchImportOk <;> rcases e.torchSaysCudaAvailable <;> simp
  · intro m fs
    have hiff := initLoop_ok_iff
      (attempt (init_model_core e model_size attempt).effectiveModel
        (init_model_core e model_size attempt).device)
      (init_model_core e model_size attempt).candidates none m fs
    rw [← hpair, Prod.mk.injEq] at hiff
    exact hiff
  · constructor
    · rintro ⟨l, hl⟩
      have hinit : initLoop (attempt (init_model_core e model_size attempt).effectiveModel
            (init_model_core e model_size attempt).device)
          (init_model_core e model_size attempt).candidates none =
          (Except.error l, (init_model_core e model_size attempt).failedConfigs) := by
        rw [← hpair, hl]
      exact (initLoop_all_fail_of_error _ _ _ _ _ hinit).1
    · intro hall
      obtain ⟨l, hl, -, -⟩ := initLoop_error_of_all_fail
        (attempt (init_model_core e model_size attempt).effectiveModel
          (init_model_core e model_size attempt).device)
        (init_model_core e model_size attempt).candidates none hall
      refine ⟨l, ?_⟩
      have := hpair.trans hl
      exact (Prod.mk.injEq .. ▸ this).1
  · intro l hl
    have hinit : initLoop (attempt (init_model_core e model_size attempt).effectiveModel
          (init_model_core e model_size attempt).device)
        (init_model_core e model_size attempt).candidates none =
        (Except.error l, (init_model_core e model_size attempt).failedConfigs) := by
      rw [← hpair, hl]
    obtain ⟨hall, hfs⟩ := initLoop_all_fail_of_error _ _ _ _ _ hinit
    refine ⟨hfs, ?_⟩
    obtain ⟨l', hl', -, hlast⟩ := initLoop_error_of_all_fail
      (attempt (init_model_core e model_size attempt).effectiveModel
        (init_model_core e model_size attempt).device)
      (init_model_core e model_size attempt).candidates none hall
    have hdet := hinit.symm.trans hl'
    obtain ⟨hd1, -⟩ := Prod.mk.injEq .. ▸ hdet
    obtain rfl : l = l' := Except.error.injEq .. ▸ hd1
    have hne : (init_model_core e model_size attempt).candidates ≠ [] := by
      unfold init_model_core select_device_and_compute torch_cuda_available
      rcases e.torchImportOk <;> rcases e.torchSaysCudaAvailable <;> simp
    obtain ⟨c, hc⟩ := Option.isSome_iff_exists.mp
      (List.getLast?_isSome.mpr hne)
    obtain ⟨err, herr, hlerr⟩ := hlast c hc
    exact ⟨c, err, hc, herr, hlerr⟩

/-- Claim C3, witness: on a CUDA machine with a constructor failing at
`float16` and succeeding at `float32`, `_init_model` returns the `float32`
model and logged exactly one failed configuration, `float16`. -/
theorem init_model_fallback_witness :
    (init_model_core envCuda "medium" attemptF16Fails).outcome = Except.ok 7 ∧
    (init_model_core envCuda "medium" attemptF16Fails).failedConfigs =
      [ComputeType.float16] :=
  ((init_model_fallback envCuda "medium" attemptF16Fails).2.1 7
      [ComputeType.float16]).mpr
    ⟨ComputeType.float32, [ComputeType.int8], rfl,
      by
        intro x hx
        rw [List.mem_singleton] at hx
        subst hx
        exact ⟨"cublas64_12.dll not found", rfl⟩,
      rfl⟩

/-- Claim C5: for a requested model in the unstable denylist
(`{"large", "large-v2"}`), `_init_model` substitutes the stable default
`"medium"` and logs exactly one substitution warning when the selected device
is CUDA; on CPU the requested variant is used unchanged and no substitution
warning is logged. -/
theorem init_model_unsafe_guard {E M : Type} (e : TranscriberEnv) (ms : String)
    (attempt : String → Device → ComputeType → Except E M)
    (h : ms ∈ UNSAFE_LARGE_MODELS) :
    (torch_cuda_available e = true →
      (init_model_core e ms attempt).device = Device.cuda ∧
      (init_model_core e ms attempt).effectiveModel = DEFAULT_WHISPER_MODEL ∧
      (init_model_core e ms attempt).substWarnings = 1) ∧
    (torch_cuda_available e = false →
      (init_model_core e ms attempt).device = Device.cpu ∧
      (init_model_core e ms attempt).effectiveModel = ms ∧
      (init_model_core e ms attempt).substWarnings = 0) := by
  have hne : ms ≠ "" := by
    simp only [UNSAFE_LARGE_MODELS, List.mem_cons, List.mem_singleton,
      List.not_mem_nil, or_false] at h
    rcases h with rfl | rfl <;> decide
  constructor
  · intro htc
    refine ⟨?_, ?_, ?_⟩ <;>
      simp [init_model_core, select_device_and_compute, htc, hne, h]
  · intro htc
    refine ⟨?_, ?_, ?_⟩ <;>
      simp [init_model_core, select_device_and_compute, htc, hne]

/-- Claim C5, witness: requesting `"large"` on a CUDA machine yields the
substituted `"medium"` model and one substitution warning. -/
theorem init_model_unsafe_guard_witness :
    (init_model_core envCuda "large" attemptOk).effectiveModel =
      DEFAULT_WHISPER_MODEL ∧
    (init_model_core envCuda "large" attemptOk).substWarnings = 1 :=
  ⟨((init_model_unsafe_guard envCuda "large" attemptOk
      (by simp [UNSAFE_LARGE_MODELS])).1 rfl).2.1,
   ((init_model_unsafe_guard envCuda "large" attemptOk
      (by simp [UNSAFE_LARGE_MODELS])).1 rfl).2.2⟩

/-- Claim C4: when the chosen translation model is `facebook/nllb-200-3.3B`,
the chosen device is CUDA, and the reported total CUDA memory is below
16 GiB, the `NLLBTranslator` constructor forces the device to CPU and (with a
logger supplied) logs exactly one memory-fallback warning; in every other
situation this override leaves the device decision unchanged and logs no
memory warning. -/
theorem nllb_init_memory_override (e : NLLBEnv) (req : Option String) :
    (pick_model_name e req = DEFAULT_MODEL_LARGE → choose_device e = Device.cuda →
      cuda_total_gib e < 16 →
      (nllb_init e req true).device = Device.cpu ∧
      (nllb_init e req true).memWarnings = 1) ∧
    (¬ (pick_model_name e req = DEFAULT_MODEL_LARGE ∧ choose_device e = Device.cuda ∧
        cuda_total_gib e < 16) →
      ∀ hasLog : Bool, (nllb_init e req hasLog).device = choose_device e ∧
        (nllb_init e req hasLog).memWarnings = 0) := by
  constructor
  · intro h1 h2 h3
    constructor <;> simp [nllb_init, h1, h2, h3]
  · intro hm hasLog
    constructor <;> simp [nllb_init, hm]

/-- Claim C4, witness: requesting the 3.3B model on a CUDA device with 8 GiB
of memory forces CPU with one warning. -/
theorem nllb_init_memory_override_witness :
    (nllb_init envGpu8GiB (some DEFAULT_MODEL_LARGE) true).device = Device.cpu ∧
    (nllb_init envGpu8GiB (some DEFAULT_MODEL_LARGE) true).memWarnings = 1 :=
  (nllb_init_memory_override envGpu8GiB (some DEFAULT_MODEL_LARGE)).1
    (by decide) rfl
    (by norm_num [cuda_total_gib, envGpu8GiB])

/-- Claim C10: with no explicitly requested model name, `_pick_model_name`
auto-selects the large model exactly when the reported total CUDA memory is at
least 16 GiB, and the small distilled model otherwise; a failing
device-properties query reports 0 GiB and therefore the small model. -/
theorem pick_model_name_auto (e : NLLBEnv) :
    (pick_model_name e none = DEFAULT_MODEL_LARGE ↔ 16 ≤ cuda_total_gib e) ∧
    (¬ 16 ≤ cuda_total_gib e → pick_model_name e none = DEFAULT_MODEL_SMALL) ∧
    (e.propsQueryFails = true →
      cuda_total_gib e = 0 ∧ pick_model_name e none = DEFAULT_MODEL_SMALL) := by
  have hms : ¬ (DEFAULT_MODEL_SMALL = DEFAULT_MODEL_LARGE) := by decide
  refine ⟨⟨?_, ?_⟩, ?_, ?_⟩
  · intro h
    by_cases hc : 16 ≤ cuda_total_gib e
    · exact hc
    · rw [pick_model_name] at h
      simp only [ge_iff_le, hc, if_false] at h
      exact absurd h hms
  · intro hc
    rw [pick_model_name]
    simp [ge_iff_le, hc]
  · intro hc
    rw [pick_model_name]
    simp [ge_iff_le, hc]
  · intro hq
    have h0 : cuda_total_gib e = 0 := by
      rw [cuda_total_gib, hq]
      simp
    refine ⟨h0, ?_⟩
    have hlt : ¬ 16 ≤ cuda_total_gib e := by
      rw [h0]
      norm_num
    rw [pick_model_name]
    simp [ge_iff_le, hlt]

/-- Claim C10, witness: a failing memory query resolves to 0 GiB and the
small model. -/
theorem pick_model_name_auto_witness :
    cuda_total_gib envPropsFail = 0 ∧
    pick_model_name envPropsFail none = DEFAULT_MODEL_SMALL :=
  (pick_model_name_auto envPropsFail).2.2 rfl

/-- Claim C6: when the model loads, `transcribe_audio_files` returns exactly
the output paths of the files that transcribe successfully (in sorted order)
and logs exactly one error line, naming the file, per failed file — so one
failure never aborts the remaining files; when the model fails to load it
returns no output paths and one load-error line. -/
theorem transcribe_audio_files_spec {M : Type} (wavStems : List String)
    (modelInit : Except String M) (run : M → String → Except String String) :
    (∀ err, modelInit = Except.error err →
      transcribe_audio_files wavStems modelInit run = ([], [errLoadLine err])) ∧
    (∀ m, modelInit = Except.ok m →
      (transcribe_audio_files wavStems modelInit run).1 =
        ((sortStrings wavStems).filter fun f => (run m f).isOk).map outPath ∧
      (transcribe_audio_files wavStems modelInit run).2 =
        ((sortStrings wavStems).filter fun f => !(run m f).isOk).map
          (fun f => errLine f (errText (run m f)))) := by
  constructor
  · intro err herr
    simp only [transcribe_audio_files, herr]
  · intro m hm
    simp only [transcribe_audio_files, hm]
    exact transcribeLoop_spec (run m) (sortStrings wavStems)

/-- Claim C6, witness: three WAV files of which the middle one fails yield
exactly the two output paths of the successful files and exactly one error
line naming the failed file. -/
theorem transcribe_audio_files_spec_witness :
    (transcribe_audio_files wavStems3 (Except.ok ()) runFailS2).1 =
      ["s1.txt", "s3.txt"] ∧
    (transcribe_audio_files wavStems3 (Except.ok ()) runFailS2).2 =
      [errLine "s2" "decode error"] := by
  obtain ⟨h1, h2⟩ :=
    (transcribe_audio_files_spec wavStems3 (Except.ok ()) runFailS2).2 () rfl
  rw [h1, h2]
  exact ⟨rfl, rfl⟩

/-- Unfolding equation for `set_cuda_paths` on the failing-body branch: the
exception is caught, one warning is logged, and the environment is
unchanged (the function itself raises nothing). -/
theorem set_cuda_paths_bodyFails (e : PathEnv) (hw : e.isWindows = true)
    (hb : e.bodyFails = true) : set_cuda_paths e = (e, 1, 0) := by
  simp [set_cuda_paths, hw, hb]

/-- Unfolding equation for `set_cuda_paths` on the branches where it leaves
the environment untouched. -/
theorem set_cuda_paths_noop (e : PathEnv)
    (h : e.isWindows = false ∨ e.bodyFails = true ∨ toPrepend e = []) :
    (set_cuda_paths e).1 = e := by
  rcases hw : e.isWindows with _ | _
  · simp [set_cuda_paths, hw]
  · rcases hb : e.bodyFails with _ | _
    · have htp : toPrepend e = [] := by
        rcases h with h | h | h
        · rw [hw] at h
          exact absurd h (by simp)
        · rw [hb] at h
          exact absurd h (by simp)
        · exact h
      simp [set_cuda_paths, hw, hb, htp]
    · simp [set_cuda_paths, hw, hb]

/-- Unfolding equation for `set_cuda_paths` on its mutating branch. -/
theorem set_cuda_paths_eq_of (e : PathEnv) (hw : e.isWindows = true)
    (hb : e.bodyFails = false) (htp : toPrepend e ≠ []) :
    set_cuda_paths e =
      ({ e with
          path := toPrepend e ++ e.path
          cudaPath := some (e.cudaPath.getD (joinSep (toPrepend e)))
          cudaPathV124 := some (e.cudaPathV124.getD (joinSep (toPrepend e))) },
        0, 1) := by
  have htp' : (toPrepend e).isEmpty = false := by
    simpa [List.isEmpty_iff] using htp
  simp [set_cuda_paths, hw, hb, htp']

/-- Claim C8, counterexample: `set_cuda_paths` is not idempotent.  On a
Windows venv with an existing DLL directory, the second application prepends
the directory to `PATH` again, so the observable environment differs from the
state after the first application. -/
theorem set_cuda_paths_claim_counterexample :
    (set_cuda_paths (set_cuda_paths pathEnvCex).1).1 ≠
      (set_cuda_paths pathEnvCex).1 := by
  decide

/-- Claim C8 (amended): `set_cuda_paths` never raises — a failing body is
caught, logged as exactly one warning, and leaves the environment unchanged —
and a repeated application leaves `CUDA_PATH`, `CUDA_PATH_V12_4` and the set
of `PATH` entries unchanged; but it is not idempotent on `PATH` itself: when
some DLL directory exists (and the body succeeds, on Windows), the second
application prepends the discovered directories to `PATH` a second time, and
only in the remaining cases is the environment left exactly as after the
first application. -/
theorem set_cuda_paths_repeat (e : PathEnv) :
    (e.isWindows = true → e.bodyFails = true → set_cuda_paths e = (e, 1, 0)) ∧
    (set_cuda_paths (set_cuda_paths e).1).1.cudaPath =
      (set_cuda_paths e).1.cudaPath ∧
    (set_cuda_paths (set_cuda_paths e).1).1.cudaPathV124 =
      (set_cuda_paths e).1.cudaPathV124 ∧
    (∀ d, d ∈ (set_cuda_paths (set_cuda_paths e).1).1.path ↔
      d ∈ (set_cuda_paths e).1.path) ∧
    (e.isWindows = true → e.bodyFails = false → toPrepend e ≠ [] →
      (set_cuda_paths (set_cuda_paths e).1).1.path =
        toPrepend e ++ (set_cuda_paths e).1.path) ∧
    (e.isWindows = false ∨ e.bodyFails = true ∨ toPrepend e = [] →
      (set_cuda_paths (set_cuda_paths e).1).1 = (set_cuda_paths e).1) := by
  by_cases hgood : e.isWindows = true ∧ e.bodyFails = false ∧ toPrepend e ≠ []
  · obtain ⟨hw, hb, htp⟩ := hgood
    have h1 := set_cuda_paths_eq_of e hw hb htp
    have hfst : (set_cuda_paths e).1 =
        { e with
            path := toPrepend e ++ e.path
            cudaPath := some (e.cudaPath.getD (joinSep (toPrepend e)))
            cudaPathV124 := some (e.cudaPathV124.getD (joinSep (toPrepend e))) } := by
      rw [h1]
    have hw1 : (set_cuda_paths e).1.isWindows = true := by
      rw [hfst]
      exact hw
    have hb1 : (set_cuda_paths e).1.bodyFails = false := by
      rw [hfst]
      exact hb
    have htp1 : toPrepend (set_cuda_paths e).1 = toPrepend e := by
      rw [hfst]
      rfl
    have h2 := set_cuda_paths_eq_of (set_cuda_paths e).1 hw1 hb1
      (by rw [htp1]; exact htp)
    refine ⟨?_, ?_, ?_, ?_, ?_, ?_⟩
    · intro _ hb'
      rw [hb] at hb'
      exact absurd hb' (by simp)
    · rw [h2, htp1, hfst]
      simp
    · rw [h2, htp1, hfst]
      simp
    · intro d
      rw [h2, htp1, hfst]
      simp only [List.mem_append]
      tauto
    · intro _ _ _
      rw [h2, htp1]
    · rintro (h | h | h)
      · rw [hw] at h
        exact absurd h (by simp)
      · rw [hb] at h
        exact absurd h (by simp)
      · exact absurd h htp
  · have hnoop : (set_cuda_paths e).1 = e := by
      apply set_cuda_paths_noop
      by_cases hw : e.isWindows = true
      · by_cases hb : e.bodyFails = true
        · exact Or.inr (Or.inl hb)
        · refine Or.inr (Or.inr ?_)
          by_cases htp : toPrepend e = []
          · exact htp
          · exact absurd ⟨hw, by simpa using hb, htp⟩ hgood
      · exact Or.inl (by simpa using hw)
    refine ⟨?_, ?_, ?_, ?_, ?_, ?_⟩
    · intro hw hb
      exact set_cuda_paths_bodyFails e hw hb
    · rw [hnoop, hnoop]
    · rw [hnoop, hnoop]
    · intro d
      rw [hnoop, hnoop]
    · intro hw hb htp
      exact absurd ⟨hw, hb, htp⟩ hgood
    · intro _
      rw [hnoop]
      exact hnoop

/-- Claim C8, witness: on the counterexample environment the second
application prepends the DLL directories to `PATH` again. -/
theorem set_cuda_paths_repeat_witness :
    (set_cuda_paths (set_cuda_paths pathEnvCex).1).1.path =
      toPrepend pathEnvCex ++ (set_cuda_paths pathEnvCex).1.path :=
  (set_cuda_paths_repeat pathEnvCex).2.2.2.2.1 rfl rfl (by decide)

end OpenEduVoice
